import Mathlib

/-!
Shallow embedding of the auto-call sequencing engine of the client_calling
repository (src/hooks/useCallSystem.ts).  The scheduler modelled here is the
round-based revision of `useCallSystem` (the revision whose `processAutoCall`
computes round 1 over the full contact snapshot and round ≥ 2 over the
pending/missed contacts); `updateEmployeeStatus`, `callEmployee`,
`stopAutoCalling` and the data model are identical in every revision of the
hook present in the repository.

Machine integers do not occur: every numeric quantity in the source is a small
JavaScript number used as a counter or a millisecond delay, modelled as `Nat`.
Timestamps (`new Date()`) are modelled by an explicit `now : Nat` parameter.
The external Call Transport (`supabaseService.callClient`) is modelled by an
oracle `transport : Nat → String → TransportOutcome` giving, per round and
contact identifier, how the transport promise behaves.
-/

/-- `Employee['status']` from src/types/Employee.ts. -/
inductive CallStatus where
  | pending
  | calling
  | answered
  | missed
deriving DecidableEq, Repr

/-- `priority` field from src/types/Employee.ts. -/
inductive ClientPriority where
  | high
  | followUp
  | notInterested
deriving DecidableEq, Repr

/-- `workStatus` field from src/types/Employee.ts. -/
inductive WorkState where
  | new
  | inProgress
  | completed
  | repeatClient
deriving DecidableEq, Repr

/-- The `Employee` record from src/types/Employee.ts.  `lastCallTime` keeps a
`Nat` timestamp instead of a `Date`. -/
structure Employee where
  id : String
  name : String
  phoneNumber : String
  whatsappNumber : Option String
  position : String
  department : String
  email : String
  status : CallStatus
  callAttempts : Nat
  lastCallTime : Option Nat
  isDefault : Option Bool
  priority : Option ClientPriority
  workStatus : Option WorkState
  isUrgent : Option Bool
deriving DecidableEq, Repr

/-- A pending `setTimeout` registered in `autoCallTimeoutRef`: the index the
scheduled `processAutoCall(index)` step will receive, and the delay in
milliseconds it was scheduled with. -/
structure PendingDispatch where
  index : Nat
  delayMs : Nat
deriving DecidableEq, Repr

/-- The mutable state of the `useCallSystem` hook that the scheduler touches:
the `employees` array, the `isAutoCallActive` flag, the `currentCallingId`
marker, the `currentEmployeeIndex` cursor, `stats.currentRound`, the
`isAutoCallingRef` liveness ref and the `autoCallTimeoutRef` slot. -/
structure CallSystemState where
  employees : List Employee
  isAutoCallActive : Bool
  currentCallingId : Option String
  currentEmployeeIndex : Nat
  currentRound : Nat
  isAutoCallingRef : Bool
  autoCallTimeout : Option PendingDispatch
deriving DecidableEq, Repr

/-- Initial hook state (the `useState` initialisers). -/
def initState (emps : List Employee) : CallSystemState :=
  { employees := emps
    isAutoCallActive := false
    currentCallingId := none
    currentEmployeeIndex := 0
    currentRound := 1
    isAutoCallingRef := false
    autoCallTimeout := none }

/-- The fixed 10-second deadline of a call attempt (`setTimeout(..., 10000)`
inside `callEmployee`). -/
def callTimeoutMs : Nat := 10000

/-- `updateEmployeeStatus` from useCallSystem.ts: map over the employee array,
and for the employee whose id matches set the new status, stamp the call time,
and bump `callAttempts` unless the new status is `'calling'`. -/
def updateEmployeeStatus (now : Nat) (employeeId : String) (status : CallStatus)
    (emps : List Employee) : List Employee :=
  emps.map fun emp =>
    if emp.id = employeeId then
      { emp with
          status := status
          lastCallTime := some now
          callAttempts :=
            if status = CallStatus.calling then emp.callAttempts
            else emp.callAttempts + 1 }
    else emp

/-- The three things that can happen to the promise raced inside
`callEmployee`: the 10-second timer fires, the transport promise fulfills with
`{answered}`, or the transport promise rejects. -/
inductive RaceEvent where
  | timeoutFired
  | transportResolved (answered : Bool)
  | transportRejected
deriving DecidableEq, Repr

/-- The closure state of the race inside `callEmployee`: the `resolved` boolean
flag, and the value (if any) the surrounding promise has been resolved with. -/
structure RaceState where
  resolved : Bool
  result : Option Bool
deriving DecidableEq, Repr

/-- One callback firing against the race closure.  Each of the three callbacks
in `callEmployee` begins with `if (!resolved)`, sets `resolved = true`, and
resolves: the timer with `false`, the fulfillment with `result.answered`, the
rejection handler with `false`. -/
def raceStep (st : RaceState) (ev : RaceEvent) : RaceState :=
  if st.resolved then st
  else
    match ev with
    | RaceEvent.timeoutFired => { resolved := true, result := some false }
    | RaceEvent.transportResolved b => { resolved := true, result := some b }
    | RaceEvent.transportRejected => { resolved := true, result := some false }

/-- Run a sequence of race callbacks against the fresh closure state. -/
def raceRun (evs : List RaceEvent) : RaceState :=
  evs.foldl raceStep { resolved := false, result := none }

/-- Behaviour of one transport call (`supabaseService.callClient`): it fulfills
after `afterMs` milliseconds with `{answered}`, rejects after `afterMs`
milliseconds, or never settles. -/
inductive TransportOutcome where
  | resolves (afterMs : Nat) (answered : Bool)
  | rejects (afterMs : Nat)
  | never
deriving DecidableEq, Repr

/-- The order in which the race callbacks fire for a given transport behaviour:
the transport callback comes first exactly when it settles strictly before the
10-second timer.  When the transport settles first the source also calls
`clearTimeout`; the timer event is still listed here and is a no-op under the
`resolved` latch, so the model is equivalent. -/
def raceEvents (tr : TransportOutcome) : List RaceEvent :=
  match tr with
  | TransportOutcome.resolves t b =>
      if t < callTimeoutMs then [RaceEvent.transportResolved b, RaceEvent.timeoutFired]
      else [RaceEvent.timeoutFired, RaceEvent.transportResolved b]
  | TransportOutcome.rejects t =>
      if t < callTimeoutMs then [RaceEvent.transportRejected, RaceEvent.timeoutFired]
      else [RaceEvent.timeoutFired, RaceEvent.transportRejected]
  | TransportOutcome.never => [RaceEvent.timeoutFired]

/-- The boolean the awaited race promise in `callEmployee` yields for a given
transport behaviour. -/
def callRace (tr : TransportOutcome) : Bool :=
  ((raceRun (raceEvents tr)).result).getD false

/-- First half of `callEmployee`, before the await: set the calling status and
publish `currentCallingId`. -/
def callBegin (now : Nat) (employeeId : String) (s : CallSystemState) :
    CallSystemState :=
  { s with
      employees := updateEmployeeStatus now employeeId CallStatus.calling s.employees
      currentCallingId := some employeeId }

/-- Second half of `callEmployee`, after the await: write the final status
(`'answered'` on `true`, `'missed'` on `false`) and clear `currentCallingId`. -/
def callFinish (now : Nat) (employeeId : String) (callResult : Bool)
    (s : CallSystemState) : CallSystemState :=
  { s with
      employees :=
        updateEmployeeStatus now employeeId
          (if callResult then CallStatus.answered else CallStatus.missed)
          s.employees
      currentCallingId := none }

/-- `callEmployee` from useCallSystem.ts as a state transformer returning the
call result. -/
def callEmployee (now : Nat) (tr : TransportOutcome) (employeeId : String)
    (s : CallSystemState) : CallSystemState × Bool :=
  let s1 := callBegin now employeeId s
  let callResult := callRace tr
  (callFinish now employeeId callResult s1, callResult)

/-- `stopAutoCalling` from useCallSystem.ts: drop the active flag and the
liveness ref, clear the pending timeout, clear the calling marker. -/
def stopAutoCalling (s : CallSystemState) : CallSystemState :=
  { s with
      isAutoCallActive := false
      isAutoCallingRef := false
      autoCallTimeout := none
      currentCallingId := none }

/-- The `emp.status === 'pending' || emp.status === 'missed'` filter used by
the scheduler. -/
def isUnanswered (emp : Employee) : Bool :=
  emp.status = CallStatus.pending || emp.status = CallStatus.missed

/-- The `clientsToCall` computation at the top of `processAutoCall`: round 1
takes the full employees snapshot, any other round filters for the
not-answered contacts, keeping stored order. -/
def dispatchTargets (currentRound : Nat) (emps : List Employee) : List Employee :=
  if currentRound = 1 then emps else emps.filter isUnanswered

/-- The body of `processAutoCall` from the point where a client has been
selected: remember the client's position in the full array, run
`callEmployee` (begin, awaited race, finish), and — if the liveness ref is
still up after the await — schedule the next index after the 1.5-second
inter-call delay.  `stopDuringCall` models an operator pressing stop while
the step is suspended at `await callEmployee(...)` — the one suspension point
inside the step; the in-flight call still completes and writes its result,
exactly as in the source, and the post-await `isAutoCallingRef.current` read
then suppresses the follow-on `setTimeout`. -/
def dialStep (transport : Nat → String → TransportOutcome) (stopDuringCall : Bool)
    (now employeeIndex : Nat) (currentClient : Employee) (actualIndex : Nat)
    (s : CallSystemState) : CallSystemState :=
  let s1 := { s with currentEmployeeIndex := actualIndex }
  let s2 := callBegin now currentClient.id s1
  let s3 := if stopDuringCall then stopAutoCalling s2 else s2
  let callResult := callRace (transport s.currentRound currentClient.id)
  let s4 := callFinish now currentClient.id callResult s3
  if s4.isAutoCallingRef then
    { s4 with autoCallTimeout := some { index := employeeIndex + 1, delayMs := 1500 } }
  else s4

/-- `processAutoCall(employeeIndex)` from useCallSystem.ts (round-based
revision), as one atomic step.  The top guard `!isAutoCallingRef.current ||
employees.length === 0` is written as the equivalent proposition. -/
def processAutoCall (transport : Nat → String → TransportOutcome)
    (stopDuringCall : Bool) (now : Nat) (employeeIndex : Nat)
    (s : CallSystemState) : CallSystemState :=
  if s.isAutoCallingRef = false ∨ s.employees.length = 0 then s
  else
    let clientsToCall := dispatchTargets s.currentRound s.employees
    if clientsToCall.length = 0 then
      stopAutoCalling s
    else if clientsToCall.length ≤ employeeIndex then
      let stillUnanswered := s.employees.filter isUnanswered
      if stillUnanswered.length = 0 then
        stopAutoCalling s
      else
        { s with
            currentRound := s.currentRound + 1
            autoCallTimeout := some { index := 0, delayMs := 2000 } }
    else
      match clientsToCall[employeeIndex]? with
      | none =>
          { s with autoCallTimeout := some { index := employeeIndex + 1, delayMs := 100 } }
      | some currentClient =>
        match s.employees.findIdx? (fun emp => emp.id = currentClient.id) with
        | none =>
            { s with autoCallTimeout := some { index := employeeIndex + 1, delayMs := 100 } }
        | some actualIndex =>
            dialStep transport stopDuringCall now employeeIndex currentClient actualIndex s

/-- `startAutoCalling` from useCallSystem.ts (round-based revision): bail out
when already active, bail out when there are no clients, otherwise raise the
flags, reset the round to 1 and the cursor to 0, and schedule
`processAutoCall(0)` after the 500 ms pre-roll delay. -/
def startAutoCalling (s : CallSystemState) : CallSystemState :=
  if s.isAutoCallActive then s
  else if s.employees.length = 0 then s
  else
    { s with
        isAutoCallActive := true
        isAutoCallingRef := true
        currentRound := 1
        currentEmployeeIndex := 0
        autoCallTimeout := some { index := 0, delayMs := 500 } }

/-- The browser timer loop, fuel-bounded: while a timeout is pending, fire it
(consuming the single `autoCallTimeoutRef` slot) and run the scheduled
`processAutoCall` step.  Steps run with no operator interference
(`stopDuringCall = false`); timestamps are immaterial to the scheduler and are
passed as 0. -/
def runScheduler (transport : Nat → String → TransportOutcome) (fuel : Nat)
    (s : CallSystemState) : CallSystemState :=
  match fuel with
  | 0 => s
  | Nat.succ fuel =>
    match s.autoCallTimeout with
    | none => s
    | some task =>
        runScheduler transport fuel
          (processAutoCall transport false 0 task.index { s with autoCallTimeout := none })

/-- Number of employees whose status is `'calling'`. -/
def callingCount (emps : List Employee) : Nat :=
  (emps.filter (fun emp => emp.status = CallStatus.calling)).length

/-- Base contact record for concrete test inputs. -/
def demoContact (theId theName : String) (st : CallStatus) : Employee :=
  { id := theId
    name := theName
    phoneNumber := "+10000000000"
    whatsappNumber := none
    position := "client"
    department := "sales"
    email := "demo@example.com"
    status := st
    callAttempts := 0
    lastCallTime := none
    isDefault := none
    priority := none
    workStatus := none
    isUrgent := none }

def demoPending : Employee := demoContact "a" "Ada" CallStatus.pending

def demoPendingB : Employee := demoContact "b" "Bob" CallStatus.pending

def demoAnswered : Employee := demoContact "c" "Cal" CallStatus.answered

def demoMissed : Employee := demoContact "d" "Dee" CallStatus.missed

/-- A failed call attempt, as the spec's failure taxonomy describes it: the
transport rejects, or takes at least the 10-second deadline, or never
settles. -/
def transportFailed (tr : TransportOutcome) : Prop :=
  (∃ t, tr = TransportOutcome.rejects t)
  ∨ (∃ t b, tr = TransportOutcome.resolves t b ∧ callTimeoutMs ≤ t)
  ∨ tr = TransportOutcome.never

/-- A transport that always settles immediately, within the deadline, with
answered = false: every call attempt resolves, yet no contact ever reaches
answered status. -/
def missTransport : Nat → String → TransportOutcome :=
  fun _ _ => TransportOutcome.resolves 0 false

/-- States reachable while auto-calling a single never-answering contact of
id "a": the scheduler is up and a dispatch is always pending at index 0
(pre-roll or inter-round) or index 1 (inter-call). -/
def missLoopInv (s : CallSystemState) : Prop :=
  s.isAutoCallActive = true ∧ s.isAutoCallingRef = true
  ∧ (∃ e : Employee, s.employees = [e] ∧ e.id = "a" ∧ isUnanswered e = true)
  ∧ (s.autoCallTimeout = some { index := 0, delayMs := 500 }
     ∨ s.autoCallTimeout = some { index := 1, delayMs := 1500 }
     ∨ s.autoCallTimeout = some { index := 0, delayMs := 2000 })

/-- Invariant of a round-1 run over a contact list whose calls all answer:
after `j` dispatched calls the scheduler is up in round 1, a dispatch of
index `j` is pending, ids and order of the contacts are unchanged, and the
first `j` contacts are answered. -/
def roundOneInv (emps0 : List Employee) (j : Nat) (s : CallSystemState) : Prop :=
  s.isAutoCallActive = true ∧ s.isAutoCallingRef = true ∧ s.currentRound = 1
  ∧ (∃ d, s.autoCallTimeout = some { index := j, delayMs := d })
  ∧ s.employees.map Employee.id = emps0.map Employee.id
  ∧ ∀ k, ∀ hk : k < s.employees.length, k < j →
      (s.employees.get ⟨k, hk⟩).status = CallStatus.answered

/-! ### Helper lemmas about the call-attempt race -/

/-- Once the race closure has latched (`resolved = true`), every further
callback is a no-op. -/
theorem raceStep_of_resolved (st : RaceState) (ev : RaceEvent)
    (h : st.resolved = true) : raceStep st ev = st := by
  simp [raceStep, h]

/-- A latched race state absorbs any further event sequence. -/
theorem raceFold_of_resolved (st : RaceState) (h : st.resolved = true)
    (evs : List RaceEvent) : evs.foldl raceStep st = st := by
  induction evs with
  | nil => rfl
  | cons ev evs ih => simp [List.foldl_cons, raceStep_of_resolved st ev h, ih]

/-- First-resolution-wins: once some prefix of the callbacks has resolved the
race, appending further callbacks changes nothing. -/
theorem raceRun_append_of_resolved (evs evs' : List RaceEvent)
    (h : (raceRun evs).resolved = true) :
    raceRun (evs ++ evs') = raceRun evs := by
  unfold raceRun
  rw [List.foldl_append]
  exact raceFold_of_resolved _ h _

theorem callRace_resolves_lt (t : Nat) (b : Bool) (ht : t < callTimeoutMs) :
    callRace (TransportOutcome.resolves t b) = b := by
  simp [callRace, raceEvents, ht, raceRun, raceStep]

theorem callRace_resolves_ge (t : Nat) (b : Bool) (ht : callTimeoutMs ≤ t) :
    callRace (TransportOutcome.resolves t b) = false := by
  have : ¬ t < callTimeoutMs := by omega
  simp [callRace, raceEvents, this, raceRun, raceStep]

theorem callRace_rejects (t : Nat) : callRace (TransportOutcome.rejects t) = false := by
  by_cases ht : t < callTimeoutMs <;>
    simp [callRace, raceEvents, ht, raceRun, raceStep]

theorem callRace_never : callRace TransportOutcome.never = false := by
  simp [callRace, raceEvents, raceRun, raceStep]

/-- C1: the call attempt races the transport result against the fixed 10-second
deadline and resolves with whichever completes first; a resolved race is a
latch that no later callback can change; and a transport rejection resolves
the attempt as `false` (not answered) rather than as a failure. -/
theorem c1_call_attempt_race :
    (∀ evs evs' : List RaceEvent, (raceRun evs).resolved = true →
        raceRun (evs ++ evs') = raceRun evs)
    ∧ (∀ t b, t < callTimeoutMs → callRace (TransportOutcome.resolves t b) = b)
    ∧ (∀ t b, callTimeoutMs ≤ t → callRace (TransportOutcome.resolves t b) = false)
    ∧ (∀ t, callRace (TransportOutcome.rejects t) = false)
    ∧ callRace TransportOutcome.never = false :=
  ⟨raceRun_append_of_resolved, callRace_resolves_lt, callRace_resolves_ge,
   callRace_rejects, callRace_never⟩

/-- Witness for C1 at concrete inputs: a race resolved by the transport is
unchanged by the late timeout callback; a 3-second answer wins the race; a
12-second answer loses to the deadline; a rejection yields `false`. -/
theorem c1_call_attempt_race_witness :
    (raceRun ([RaceEvent.transportResolved true] ++ [RaceEvent.timeoutFired])
        = raceRun [RaceEvent.transportResolved true])
    ∧ callRace (TransportOutcome.resolves 3000 true) = true
    ∧ callRace (TransportOutcome.resolves 12000 true) = false
    ∧ callRace (TransportOutcome.rejects 0) = false :=
  ⟨c1_call_attempt_race.1 [RaceEvent.transportResolved true] [RaceEvent.timeoutFired]
      (by decide),
   c1_call_attempt_race.2.1 3000 true (by decide),
   c1_call_attempt_race.2.2.1 12000 true (by decide),
   c1_call_attempt_race.2.2.2.1 0⟩

/-! ### Target-list selection, start, stop -/

/-- C3: the target list of a dispatch step is the full contact snapshot in
round 1 and exactly the contacts whose status is pending or missed, in stored
order (a sublist of the snapshot), in every round ≥ 2. -/
theorem c3_target_list (emps : List Employee) (r : Nat) (hr : 2 ≤ r) :
    dispatchTargets 1 emps = emps
    ∧ dispatchTargets r emps
        = emps.filter (fun emp =>
            emp.status = CallStatus.pending || emp.status = CallStatus.missed)
    ∧ (dispatchTargets r emps).Sublist emps
    ∧ ∀ emp ∈ emps, (emp ∈ dispatchTargets r emps ↔ isUnanswered emp = true) := by
  have hne : r ≠ 1 := by omega
  have h2 : dispatchTargets r emps = emps.filter isUnanswered := by
    simp [dispatchTargets, hne]
  refine ⟨by simp [dispatchTargets], by rw [h2]; rfl, ?_, ?_⟩
  · rw [h2]
    exact List.filter_sublist emps
  · intro emp hmem
    simp [dispatchTargets, hne, List.mem_filter, hmem]

/-- Witness for C3 at round 2 on a two-contact list, one answered and one
missed: the round-2 target list keeps exactly the missed contact. -/
theorem c3_target_list_witness :
    (2 ≤ 2
      ∧ dispatchTargets 1 [demoAnswered, demoMissed] = [demoAnswered, demoMissed]
      ∧ dispatchTargets 2 [demoAnswered, demoMissed]
          = [demoAnswered, demoMissed].filter (fun emp =>
              emp.status = CallStatus.pending || emp.status = CallStatus.missed)) := by
  refine ⟨by decide, ?_, ?_⟩
  · exact (c3_target_list [demoAnswered, demoMissed] 2 (by decide)).1
  · exact (c3_target_list [demoAnswered, demoMissed] 2 (by decide)).2.1

/-- C7: `startAutoCalling` is a no-op when the scheduler is already active or
the contact set is empty (in particular an inactive scheduler stays inactive
on an empty set), and otherwise sets the active flags, round 1, position 0,
and schedules the first dispatch at index 0 after the 500 ms pre-roll delay. -/
theorem c7_start_preconditions (s : CallSystemState) :
    (s.isAutoCallActive = true → startAutoCalling s = s)
    ∧ (s.employees = [] → startAutoCalling s = s)
    ∧ (s.isAutoCallActive = false → s.employees ≠ [] →
        (startAutoCalling s).isAutoCallActive = true
        ∧ (startAutoCalling s).isAutoCallingRef = true
        ∧ (startAutoCalling s).currentRound = 1
        ∧ (startAutoCalling s).currentEmployeeIndex = 0
        ∧ (startAutoCalling s).autoCallTimeout = some { index := 0, delayMs := 500 }
        ∧ (startAutoCalling s).employees = s.employees) := by
  refine ⟨?_, ?_, ?_⟩
  · intro h
    simp [startAutoCalling, h]
  · intro h
    simp [startAutoCalling, h]
  · intro hact hne
    have hlen : ¬ s.employees.length = 0 := by
      simpa [List.length_eq_zero] using hne
    simp [startAutoCalling, hact, hlen]

/-- Witness for C7: an already-active state is left unchanged; an empty
inactive state is left unchanged; a fresh one-contact state starts with
round 1, position 0 and a 500 ms pre-roll dispatch. -/
theorem c7_start_preconditions_witness :
    (let active := { initState [demoPending] with
        isAutoCallActive := true, isAutoCallingRef := true }
     active.isAutoCallActive = true ∧ startAutoCalling active = active)
    ∧ ((initState []).employees = [] ∧ startAutoCalling (initState []) = initState [])
    ∧ ((initState [demoPending]).isAutoCallActive = false
       ∧ (initState [demoPending]).employees ≠ []
       ∧ (startAutoCalling (initState [demoPending])).isAutoCallActive = true
       ∧ (startAutoCalling (initState [demoPending])).currentRound = 1
       ∧ (startAutoCalling (initState [demoPending])).currentEmployeeIndex = 0
       ∧ (startAutoCalling (initState [demoPending])).autoCallTimeout
           = some { index := 0, delayMs := 500 }) := by
  refine ⟨⟨rfl, ?_⟩, ⟨rfl, ?_⟩, rfl, ?_, ?_⟩
  · exact (c7_start_preconditions _).1 rfl
  · exact (c7_start_preconditions _).2.1 rfl
  · exact by decide
  · have h := (c7_start_preconditions (initState [demoPending])).2.2 rfl (by decide)
    exact ⟨h.1, h.2.2.1, h.2.2.2.1, h.2.2.2.2.1⟩

/-- C8: `stopAutoCalling` always succeeds, leaves the scheduler with
active flag down, no pending scheduled dispatch and no currently-calling
marker, and is idempotent: stopping twice equals stopping once, from any
state. -/
theorem c8_stop_idempotent (s : CallSystemState) :
    stopAutoCalling (stopAutoCalling s) = stopAutoCalling s
    ∧ (stopAutoCalling s).isAutoCallActive = false
    ∧ (stopAutoCalling s).isAutoCallingRef = false
    ∧ (stopAutoCalling s).autoCallTimeout = none
    ∧ (stopAutoCalling s).currentCallingId = none
    ∧ (stopAutoCalling s).employees = s.employees := by
  refine ⟨?_, rfl, rfl, rfl, rfl, rfl⟩
  simp [stopAutoCalling]

/-! ### Frame property of updateEmployeeStatus -/

/-- C10: `updateEmployeeStatus` is frame-preserving.  It keeps the list length;
the contact at any position whose id differs from the target id is completely
unchanged; and the matching contact changes only `status` (to the new status),
`lastCallTime` (stamped), and `callAttempts` (incremented by exactly 1 unless
the new status is `'calling'`, in which case it is unchanged) — every other
field of the matching contact is preserved. -/
theorem c10_update_frame (now : Nat) (employeeId : String) (st : CallStatus)
    (emps : List Employee) (k : Nat) (hk : k < emps.length) :
    (updateEmployeeStatus now employeeId st emps).length = emps.length
    ∧ ∃ r : Employee,
        (updateEmployeeStatus now employeeId st emps)[k]? = some r
        ∧ ((emps.get ⟨k, hk⟩).id ≠ employeeId → r = emps.get ⟨k, hk⟩)
        ∧ ((emps.get ⟨k, hk⟩).id = employeeId →
              r.id = (emps.get ⟨k, hk⟩).id
            ∧ r.name = (emps.get ⟨k, hk⟩).name
            ∧ r.phoneNumber = (emps.get ⟨k, hk⟩).phoneNumber
            ∧ r.whatsappNumber = (emps.get ⟨k, hk⟩).whatsappNumber
            ∧ r.position = (emps.get ⟨k, hk⟩).position
            ∧ r.department = (emps.get ⟨k, hk⟩).department
            ∧ r.email = (emps.get ⟨k, hk⟩).email
            ∧ r.isDefault = (emps.get ⟨k, hk⟩).isDefault
            ∧ r.priority = (emps.get ⟨k, hk⟩).priority
            ∧ r.workStatus = (emps.get ⟨k, hk⟩).workStatus
            ∧ r.isUrgent = (emps.get ⟨k, hk⟩).isUrgent
            ∧ r.status = st
            ∧ r.lastCallTime = some now
            ∧ r.callAttempts =
                (if st = CallStatus.calling then (emps.get ⟨k, hk⟩).callAttempts
                 else (emps.get ⟨k, hk⟩).callAttempts + 1)) := by
  constructor
  · simp [updateEmployeeStatus]
  · by_cases hid : (emps.get ⟨k, hk⟩).id = employeeId
    · refine ⟨{ emps.get ⟨k, hk⟩ with
          status := st
          lastCallTime := some now
          callAttempts :=
            if st = CallStatus.calling then (emps.get ⟨k, hk⟩).callAttempts
            else (emps.get ⟨k, hk⟩).callAttempts + 1 }, ?_, ?_, ?_⟩
      · simp only [updateEmployeeStatus, List.getElem?_map, List.getElem?_eq_getElem hk,
          List.get_eq_getElem, Option.map_some']
        rw [if_pos (show emps[k].id = employeeId from hid)]
      · intro h
        exact absurd hid h
      · intro _
        exact ⟨rfl, rfl, rfl, rfl, rfl, rfl, rfl, rfl, rfl, rfl, rfl, rfl, rfl, rfl⟩
    · refine ⟨emps.get ⟨k, hk⟩, ?_, fun _ => rfl, fun h => absurd h hid⟩
      simp only [updateEmployeeStatus, List.getElem?_map, List.getElem?_eq_getElem hk,
        List.get_eq_getElem, Option.map_some']
      rw [if_neg (show ¬ emps[k].id = employeeId from hid)]

/-- Witness for C10 at a concrete two-contact list, updating the contact at
position 1 (id "d") to answered with timestamp 42. -/
theorem c10_update_frame_witness :
    1 < ([demoAnswered, demoMissed] : List Employee).length
    ∧ ((updateEmployeeStatus 42 "d" CallStatus.answered [demoAnswered, demoMissed]).length
          = ([demoAnswered, demoMissed] : List Employee).length
       ∧ ∃ r : Employee,
          (updateEmployeeStatus 42 "d" CallStatus.answered [demoAnswered, demoMissed])[1]?
              = some r
          ∧ ((([demoAnswered, demoMissed] : List Employee).get ⟨1, by decide⟩).id ≠ "d" →
              r = ([demoAnswered, demoMissed] : List Employee).get ⟨1, by decide⟩)
          ∧ ((([demoAnswered, demoMissed] : List Employee).get ⟨1, by decide⟩).id = "d" →
                r.id = (([demoAnswered, demoMissed] : List Employee).get ⟨1, by decide⟩).id
              ∧ r.name = (([demoAnswered, demoMissed] : List Employee).get ⟨1, by decide⟩).name
              ∧ r.phoneNumber
                  = (([demoAnswered, demoMissed] : List Employee).get ⟨1, by decide⟩).phoneNumber
              ∧ r.whatsappNumber
                  = (([demoAnswered, demoMissed] : List Employee).get ⟨1, by decide⟩).whatsappNumber
              ∧ r.position
                  = (([demoAnswered, demoMissed] : List Employee).get ⟨1, by decide⟩).position
              ∧ r.department
                  = (([demoAnswered, demoMissed] : List Employee).get ⟨1, by decide⟩).department
              ∧ r.email = (([demoAnswered, demoMissed] : List Employee).get ⟨1, by decide⟩).email
              ∧ r.isDefault
                  = (([demoAnswered, demoMissed] : List Employee).get ⟨1, by decide⟩).isDefault
              ∧ r.priority
                  = (([demoAnswered, demoMissed] : List Employee).get ⟨1, by decide⟩).priority
              ∧ r.workStatus
                  = (([demoAnswered, demoMissed] : List Employee).get ⟨1, by decide⟩).workStatus
              ∧ r.isUrgent
                  = (([demoAnswered, demoMissed] : List Employee).get ⟨1, by decide⟩).isUrgent
              ∧ r.status = CallStatus.answered
              ∧ r.lastCallTime = some 42
              ∧ r.callAttempts =
                  (if CallStatus.answered = CallStatus.calling
                   then (([demoAnswered, demoMissed] : List Employee).get ⟨1, by decide⟩).callAttempts
                   else (([demoAnswered, demoMissed] : List Employee).get ⟨1, by decide⟩).callAttempts + 1))) :=
  ⟨by decide,
   c10_update_frame 42 "d" CallStatus.answered [demoAnswered, demoMissed] 1 (by decide)⟩

/-! ### Stop and the liveness flag -/

/-- A state with no pending timeout is a fixed point of the timer loop. -/
theorem runScheduler_of_no_timeout (transport : Nat → String → TransportOutcome)
    (fuel : Nat) (s : CallSystemState) (h : s.autoCallTimeout = none) :
    runScheduler transport fuel s = s := by
  cases fuel with
  | zero => rfl
  | succ fuel => simp [runScheduler, h]

/-- A `processAutoCall` step whose top liveness check reads the flag false
returns the state untouched: no status write, no scheduling. -/
theorem processAutoCall_of_stopped (transport : Nat → String → TransportOutcome)
    (stopDuringCall : Bool) (now i : Nat) (s : CallSystemState)
    (h : s.isAutoCallingRef = false) :
    processAutoCall transport stopDuringCall now i s = s := by
  simp [processAutoCall, h]

/-- C4: `stopAutoCalling` lowers the liveness flag and clears the pending
dispatch; any dispatch step that observes the flag false returns without
mutating state or scheduling; and after a stop the timer loop can run for any
amount of fuel without changing the state. -/
theorem c4_stop_prevents_mutation (transport : Nat → String → TransportOutcome)
    (stopDuringCall : Bool) (now i fuel : Nat) (s sInert : CallSystemState)
    (href : sInert.isAutoCallingRef = false) :
    (stopAutoCalling s).isAutoCallingRef = false
    ∧ (stopAutoCalling s).autoCallTimeout = none
    ∧ processAutoCall transport stopDuringCall now i sInert = sInert
    ∧ runScheduler transport fuel (stopAutoCalling s) = stopAutoCalling s :=
  ⟨rfl, rfl, processAutoCall_of_stopped transport stopDuringCall now i sInert href,
   runScheduler_of_no_timeout transport fuel (stopAutoCalling s) rfl⟩

/-- Witness for C4: after stopping a mid-run state, a dispatch step on the
stopped state is a no-op and the timer loop is frozen. -/
theorem c4_stop_prevents_mutation_witness :
    (stopAutoCalling (startAutoCalling (initState [demoPending]))).isAutoCallingRef = false
    ∧ (stopAutoCalling (startAutoCalling (initState [demoPending]))).isAutoCallingRef = false
    ∧ (stopAutoCalling (startAutoCalling (initState [demoPending]))).autoCallTimeout = none
    ∧ processAutoCall (fun _ _ => TransportOutcome.never) false 0 0
        (stopAutoCalling (startAutoCalling (initState [demoPending])))
        = stopAutoCalling (startAutoCalling (initState [demoPending]))
    ∧ runScheduler (fun _ _ => TransportOutcome.never) 5
        (stopAutoCalling (stopAutoCalling (startAutoCalling (initState [demoPending]))))
        = stopAutoCalling (stopAutoCalling (startAutoCalling (initState [demoPending]))) :=
  ⟨rfl,
   c4_stop_prevents_mutation (fun _ _ => TransportOutcome.never) false 0 0 5
     (stopAutoCalling (startAutoCalling (initState [demoPending])))
     (stopAutoCalling (startAutoCalling (initState [demoPending]))) rfl⟩

/-! ### The shape of one scheduler step -/

/-- Every `processAutoCall` step takes exactly one of five shapes: the
liveness/empty guard returns the state unchanged; an empty target list or an
all-answered round boundary stops; a non-terminal round boundary increments
the round and schedules index 0 after the inter-round delay; a missing client
lookup skips to the next index; or the selected client is dialled. -/
theorem processAutoCall_cases (transport : Nat → String → TransportOutcome)
    (b : Bool) (now i : Nat) (s : CallSystemState) :
    processAutoCall transport b now i s = s
    ∨ processAutoCall transport b now i s = stopAutoCalling s
    ∨ ((dispatchTargets s.currentRound s.employees).length ≤ i
        ∧ processAutoCall transport b now i s
            = { s with
                  currentRound := s.currentRound + 1
                  autoCallTimeout := some { index := 0, delayMs := 2000 } })
    ∨ processAutoCall transport b now i s
        = { s with autoCallTimeout := some { index := i + 1, delayMs := 100 } }
    ∨ (∃ c ai, i < (dispatchTargets s.currentRound s.employees).length
        ∧ (dispatchTargets s.currentRound s.employees)[i]? = some c
        ∧ s.employees.findIdx? (fun emp => emp.id = c.id) = some ai
        ∧ processAutoCall transport b now i s = dialStep transport b now i c ai s) := by
  by_cases hTop : s.isAutoCallingRef = false ∨ s.employees.length = 0
  · left
    simp only [processAutoCall]
    rw [if_pos hTop]
  · by_cases hT0 : (dispatchTargets s.currentRound s.employees).length = 0
    · right; left
      simp only [processAutoCall]
      rw [if_neg hTop, if_pos hT0]
    · by_cases hBd : (dispatchTargets s.currentRound s.employees).length ≤ i
      · by_cases hSU : (s.employees.filter isUnanswered).length = 0
        · right; left
          simp only [processAutoCall]
          rw [if_neg hTop, if_neg hT0, if_pos hBd, if_pos hSU]
        · right; right; left
          refine ⟨hBd, ?_⟩
          simp only [processAutoCall]
          rw [if_neg hTop, if_neg hT0, if_pos hBd, if_neg hSU]
      · have hi : i < (dispatchTargets s.currentRound s.employees).length :=
          Nat.lt_of_not_le hBd
        have hget : (dispatchTargets s.currentRound s.employees)[i]?
            = some (dispatchTargets s.currentRound s.employees)[i] :=
          List.getElem?_eq_getElem hi
        cases hfind : s.employees.findIdx?
            (fun emp => emp.id = (dispatchTargets s.currentRound s.employees)[i].id) with
        | none =>
          right; right; right; left
          simp only [processAutoCall]
          rw [if_neg hTop, if_neg hT0, if_neg hBd, hget]
          dsimp only
          rw [hfind]
        | some ai =>
          right; right; right; right
          refine ⟨(dispatchTargets s.currentRound s.employees)[i], ai, hi, hget, hfind, ?_⟩
          simp only [processAutoCall]
          rw [if_neg hTop, if_neg hT0, if_neg hBd, hget]
          dsimp only
          rw [hfind]

/-- Dialling a client never changes the round counter. -/
theorem dialStep_currentRound (transport : Nat → String → TransportOutcome)
    (b : Bool) (now i : Nat) (c : Employee) (ai : Nat) (s : CallSystemState) :
    (dialStep transport b now i c ai s).currentRound = s.currentRound := by
  unfold dialStep
  cases b
  · dsimp [callBegin, callFinish, stopAutoCalling]
    split <;> rfl
  · dsimp [callBegin, callFinish, stopAutoCalling]

/-- One scheduler step never decreases the round counter. -/
theorem processAutoCall_round_le (transport : Nat → String → TransportOutcome)
    (b : Bool) (now i : Nat) (s : CallSystemState) :
    s.currentRound ≤ (processAutoCall transport b now i s).currentRound := by
  rcases processAutoCall_cases transport b now i s with
    h | h | ⟨_, h⟩ | h | ⟨c, ai, _, _, _, h⟩
  · rw [h]
  · rw [h]
    exact Nat.le_refl _
  · calc s.currentRound ≤ s.currentRound + 1 := Nat.le_succ _
      _ = (processAutoCall transport b now i s).currentRound := by rw [h]
  · rw [h]
  · rw [h, dialStep_currentRound]

/-- The timer loop never decreases the round counter. -/
theorem runScheduler_round_le (transport : Nat → String → TransportOutcome)
    (fuel : Nat) : ∀ s : CallSystemState,
    s.currentRound ≤ (runScheduler transport fuel s).currentRound := by
  induction fuel with
  | zero => intro s; exact Nat.le_refl _
  | succ fuel ih =>
    intro s
    cases h : s.autoCallTimeout with
    | none => simp [runScheduler, h]
    | some task =>
      simp only [runScheduler, h]
      exact Nat.le_trans
        (processAutoCall_round_le transport false 0 task.index { s with autoCallTimeout := none })
        (ih _)

/-- C6: the round counter is non-decreasing across the timer loop, and a
single dispatch step either keeps the round or — exactly at a target-list
boundary, when the position has reached the target list's length — increments
it by one while scheduling the next step at position 0 against the list that
the next step will recompute freshly. -/
theorem c6_round_boundary (transport : Nat → String → TransportOutcome)
    (b : Bool) (now i fuel : Nat) (s : CallSystemState) :
    ((processAutoCall transport b now i s).currentRound = s.currentRound
     ∨ ((processAutoCall transport b now i s).currentRound = s.currentRound + 1
        ∧ (dispatchTargets s.currentRound s.employees).length ≤ i
        ∧ (processAutoCall transport b now i s).autoCallTimeout
            = some { index := 0, delayMs := 2000 }))
    ∧ s.currentRound ≤ (runScheduler transport fuel s).currentRound := by
  constructor
  · rcases processAutoCall_cases transport b now i s with
      h | h | ⟨hBd, h⟩ | h | ⟨c, ai, _, _, _, h⟩
    · left; rw [h]
    · left; rw [h]; rfl
    · right
      exact ⟨by rw [h], hBd, by rw [h]⟩
    · left; rw [h]
    · left; rw [h, dialStep_currentRound]
  · exact runScheduler_round_le transport fuel s

/-! ### Counting contacts in calling status -/

theorem callingCount_cons (e : Employee) (es : List Employee) :
    callingCount (e :: es)
      = (if e.status = CallStatus.calling then 1 else 0) + callingCount es := by
  by_cases h : e.status = CallStatus.calling <;>
    simp [callingCount, List.filter_cons, h, Nat.add_comm]

theorem callingCount_eq_zero (emps : List Employee) :
    callingCount emps = 0 ↔ ∀ e ∈ emps, e.status ≠ CallStatus.calling := by
  simp [callingCount, List.length_eq_zero, List.filter_eq_nil_iff]

/-- Writing a non-calling status clears all calling marks, provided every
contact currently marked calling carries the updated id. -/
theorem callingCount_update_of_all (now : Nat) (targetId : String) (st : CallStatus)
    (hst : st ≠ CallStatus.calling) :
    ∀ emps : List Employee,
      (∀ e ∈ emps, e.status = CallStatus.calling → e.id = targetId) →
      callingCount (updateEmployeeStatus now targetId st emps) = 0 := by
  intro emps
  induction emps with
  | nil => intro _; rfl
  | cons e es ih =>
    intro h
    have hupd : updateEmployeeStatus now targetId st (e :: es)
        = (if e.id = targetId then
            { e with
                status := st
                lastCallTime := some now
                callAttempts :=
                  if st = CallStatus.calling then e.callAttempts else e.callAttempts + 1 }
           else e) :: updateEmployeeStatus now targetId st es := by
      by_cases hid : e.id = targetId <;> simp [updateEmployeeStatus, hid]
    rw [hupd, callingCount_cons, ih (fun x hx => h x (List.mem_cons_of_mem e hx))]
    by_cases hid : e.id = targetId
    · simp [hid, hst]
    · have hne : ¬ e.status = CallStatus.calling :=
        fun hc => hid (h e (List.mem_cons_self e es) hc)
      simp [hid, hne]

/-- Marking a contact as calling on a list with no calling contacts produces
exactly as many calling contacts as there are contacts with that id. -/
theorem callingCount_update_calling (now : Nat) (targetId : String) :
    ∀ emps : List Employee, callingCount emps = 0 →
      callingCount (updateEmployeeStatus now targetId CallStatus.calling emps)
        = emps.countP (fun e => e.id = targetId) := by
  intro emps
  induction emps with
  | nil => intro _; rfl
  | cons e es ih =>
    intro h0
    rw [callingCount_cons] at h0
    have hes : callingCount es = 0 := by omega
    have hehd : ¬ e.status = CallStatus.calling := by
      by_cases hc : e.status = CallStatus.calling
      · rw [if_pos hc] at h0
        omega
      · exact hc
    have hupd : updateEmployeeStatus now targetId CallStatus.calling (e :: es)
        = (if e.id = targetId then
            { e with
                status := CallStatus.calling
                lastCallTime := some now
                callAttempts := e.callAttempts }
           else e) :: updateEmployeeStatus now targetId CallStatus.calling es := by
      by_cases hid : e.id = targetId <;> simp [updateEmployeeStatus, hid]
    rw [hupd, callingCount_cons, ih hes, List.countP_cons]
    by_cases hid : e.id = targetId
    · simp [hid, Nat.add_comm]
    · simp [hid, hehd]

/-- After marking a contact as calling on a list with no calling contacts,
every contact in calling status carries the updated id. -/
theorem calling_mem_update (now : Nat) (targetId : String) (emps : List Employee)
    (h0 : callingCount emps = 0) :
    ∀ e ∈ updateEmployeeStatus now targetId CallStatus.calling emps,
      e.status = CallStatus.calling → e.id = targetId := by
  intro e he hc
  rcases List.mem_map.mp he with ⟨x, hx, hfx⟩
  by_cases hid : x.id = targetId
  · rw [← hfx]
    simp [hid]
  · rw [← hfx] at hc ⊢
    simp only [hid, if_false] at hc ⊢
    exact absurd hc ((callingCount_eq_zero emps).mp h0 x hx)

/-- Membership in an updated list with the target id forces the new status. -/
theorem status_of_mem_update (now : Nat) (targetId : String) (st : CallStatus)
    (emps : List Employee) (e : Employee)
    (he : e ∈ updateEmployeeStatus now targetId st emps) (hid : e.id = targetId) :
    e.status = st := by
  rcases List.mem_map.mp he with ⟨x, hx, hfx⟩
  by_cases h : x.id = targetId
  · rw [← hfx]
    simp [h]
  · rw [← hfx] at hid
    simp only [h, if_false] at hid

/-- On a list whose ids are distinct, a member's id is counted exactly once. -/
theorem countP_id_of_nodup :
    ∀ emps : List Employee, (emps.map Employee.id).Nodup →
      ∀ emp ∈ emps, emps.countP (fun e => e.id = emp.id) = 1 := by
  intro emps
  induction emps with
  | nil => intro _ emp he; exact absurd he (List.not_mem_nil emp)
  | cons e es ih =>
    intro hn emp he
    rw [List.map_cons, List.nodup_cons] at hn
    rw [List.countP_cons]
    rcases List.mem_cons.mp he with rfl | hmem
    · have hz : es.countP (fun x => x.id = emp.id) = 0 := by
        rw [List.countP_eq_zero]
        intro x hx
        simp only [decide_eq_true_eq]
        intro hxe
        exact hn.1 (hxe ▸ List.mem_map_of_mem Employee.id hx)
      simp [hz]
    · have h1 := ih hn.2 emp hmem
      have hne : ¬ e.id = emp.id := by
        intro hee
        exact hn.1 (hee ▸ List.mem_map_of_mem Employee.id hmem)
      simp [h1, hne]

/-- The employee array after a dial step: the calling mark followed by the
final answered/missed write, regardless of a stop arriving during the await
(stopping never touches the employee array). -/
theorem dialStep_employees (transport : Nat → String → TransportOutcome)
    (b : Bool) (now i : Nat) (c : Employee) (ai : Nat) (s : CallSystemState) :
    (dialStep transport b now i c ai s).employees
      = updateEmployeeStatus now c.id
          (if callRace (transport s.currentRound c.id) then CallStatus.answered
           else CallStatus.missed)
          (updateEmployeeStatus now c.id CallStatus.calling s.employees) := by
  unfold dialStep
  cases b
  · dsimp [callBegin, callFinish, stopAutoCalling]
    split <;> rfl
  · dsimp [callBegin, callFinish, stopAutoCalling]

/-- C2: on a state with distinct contact ids and no contact marked calling,
the calling-status write at the start of a call attempt marks exactly one
contact, and a whole dispatch step — which awaits the attempt and writes the
final answered/missed status — ends with no contact marked calling, so the
next step starts again from zero calling marks. -/
theorem c2_at_most_one_calling (transport : Nat → String → TransportOutcome)
    (b : Bool) (now i : Nat) (s : CallSystemState)
    (hn : (s.employees.map Employee.id).Nodup)
    (h0 : callingCount s.employees = 0) :
    (∀ emp ∈ s.employees, callingCount (callBegin now emp.id s).employees = 1)
    ∧ callingCount (processAutoCall transport b now i s).employees = 0 := by
  constructor
  · intro emp hmem
    show callingCount (updateEmployeeStatus now emp.id CallStatus.calling s.employees) = 1
    rw [callingCount_update_calling now emp.id s.employees h0]
    exact countP_id_of_nodup s.employees hn emp hmem
  · rcases processAutoCall_cases transport b now i s with
      h | h | ⟨_, h⟩ | h | ⟨c, ai, _, _, _, h⟩ <;> rw [h]
    · exact h0
    · exact h0
    · exact h0
    · exact h0
    · rw [dialStep_employees]
      apply callingCount_update_of_all
      · by_cases hr : callRace (transport s.currentRound c.id) = true <;> simp [hr]
      · exact calling_mem_update now c.id s.employees h0

/-- Witness for C2 on a two-contact pending list with the liveness ref up. -/
theorem c2_at_most_one_calling_witness :
    (([demoPending, demoPendingB].map Employee.id).Nodup
     ∧ callingCount [demoPending, demoPendingB] = 0)
    ∧ ((∀ emp ∈ ({ initState [demoPending, demoPendingB] with
            isAutoCallActive := true, isAutoCallingRef := true } : CallSystemState).employees,
          callingCount (callBegin 0 emp.id { initState [demoPending, demoPendingB] with
            isAutoCallActive := true, isAutoCallingRef := true }).employees = 1)
       ∧ callingCount (processAutoCall (fun _ _ => TransportOutcome.resolves 0 true) false 0 0
            { initState [demoPending, demoPendingB] with
              isAutoCallActive := true, isAutoCallingRef := true }).employees = 0) :=
  ⟨⟨by decide, by decide⟩,
   c2_at_most_one_calling (fun _ _ => TransportOutcome.resolves 0 true) false 0 0
     { initState [demoPending, demoPendingB] with
       isAutoCallActive := true, isAutoCallingRef := true }
     (by decide) (by decide)⟩

/-- A failed transport call loses the race: the attempt resolves `false`. -/
theorem callRace_of_failed (tr : TransportOutcome) (h : transportFailed tr) :
    callRace tr = false := by
  rcases h with ⟨t, rfl⟩ | ⟨t, b, rfl, ht⟩ | rfl
  · exact callRace_rejects t
  · exact callRace_resolves_ge t b ht
  · exact callRace_never

/-- When the liveness ref is up, the list is non-empty, the target lookup at
the given index succeeds and the client is found in the full array, the
dispatch step is exactly a dial step. -/
theorem processAutoCall_dial (transport : Nat → String → TransportOutcome)
    (b : Bool) (now i : Nat) (s : CallSystemState) (c : Employee) (ai : Nat)
    (href : s.isAutoCallingRef = true)
    (hlen : s.employees.length ≠ 0)
    (hget : (dispatchTargets s.currentRound s.employees)[i]? = some c)
    (hfind : s.employees.findIdx? (fun emp => emp.id = c.id) = some ai) :
    processAutoCall transport b now i s = dialStep transport b now i c ai s := by
  have hi : i < (dispatchTargets s.currentRound s.employees).length := by
    by_contra hnot
    rw [List.getElem?_eq_none (Nat.le_of_not_lt hnot)] at hget
    exact Option.noConfusion hget
  have hTop : ¬ (s.isAutoCallingRef = false ∨ s.employees.length = 0) := by
    push_neg
    exact ⟨by simp [href], hlen⟩
  have hT0 : ¬ (dispatchTargets s.currentRound s.employees).length = 0 := by omega
  have hBd : ¬ (dispatchTargets s.currentRound s.employees).length ≤ i := by omega
  simp only [processAutoCall]
  rw [if_neg hTop, if_neg hT0, if_neg hBd, hget]
  dsimp only
  rw [hfind]

/-- With no stop arriving during the call, a dial step keeps the liveness ref
and active flag, and schedules the next index after the inter-call delay. -/
theorem dialStep_false_fields (transport : Nat → String → TransportOutcome)
    (now i : Nat) (c : Employee) (ai : Nat) (s : CallSystemState)
    (href : s.isAutoCallingRef = true) :
    (dialStep transport false now i c ai s).isAutoCallingRef = true
    ∧ (dialStep transport false now i c ai s).isAutoCallActive = s.isAutoCallActive
    ∧ (dialStep transport false now i c ai s).autoCallTimeout
        = some { index := i + 1, delayMs := 1500 } := by
  unfold dialStep
  simp [callBegin, callFinish, href]

/-- C9: a call attempt whose transport fails (rejects, reaches the 10-second
deadline, or never settles) resolves the attempt as `false`, never aborts the
scheduler — the liveness ref and active flag are untouched — marks the dialled
contact missed, and schedules the next position after the inter-call delay. -/
theorem c9_failure_never_aborts (transport : Nat → String → TransportOutcome)
    (now i : Nat) (s : CallSystemState) (c : Employee) (ai : Nat)
    (href : s.isAutoCallingRef = true)
    (hlen : s.employees.length ≠ 0)
    (hget : (dispatchTargets s.currentRound s.employees)[i]? = some c)
    (hfind : s.employees.findIdx? (fun emp => emp.id = c.id) = some ai)
    (hfail : transportFailed (transport s.currentRound c.id)) :
    callRace (transport s.currentRound c.id) = false
    ∧ (processAutoCall transport false now i s).isAutoCallingRef = true
    ∧ (processAutoCall transport false now i s).isAutoCallActive = s.isAutoCallActive
    ∧ (processAutoCall transport false now i s).autoCallTimeout
        = some { index := i + 1, delayMs := 1500 }
    ∧ ∀ e ∈ (processAutoCall transport false now i s).employees,
        e.id = c.id → e.status = CallStatus.missed := by
  have hrace : callRace (transport s.currentRound c.id) = false :=
    callRace_of_failed _ hfail
  have hred := processAutoCall_dial transport false now i s c ai href hlen hget hfind
  have hfields := dialStep_false_fields transport now i c ai s href
  rw [hred]
  refine ⟨hrace, hfields.1, hfields.2.1, hfields.2.2, ?_⟩
  intro e he hid
  rw [dialStep_employees, hrace] at he
  rw [show (if (false : Bool) = true then CallStatus.answered else CallStatus.missed)
        = CallStatus.missed from rfl] at he
  exact status_of_mem_update now c.id CallStatus.missed _ e he hid

/-- Witness for C9: a transport that rejects immediately, on an active
one-contact state; the attempt resolves false, the scheduler stays up, and
the contact is marked missed. -/
theorem c9_failure_never_aborts_witness :
    (({ initState [demoPending] with
          isAutoCallActive := true, isAutoCallingRef := true } : CallSystemState).isAutoCallingRef
        = true
     ∧ ({ initState [demoPending] with
          isAutoCallActive := true, isAutoCallingRef := true } : CallSystemState).employees.length ≠ 0
     ∧ transportFailed ((fun _ _ => TransportOutcome.rejects 0) 1 demoPending.id))
    ∧ (callRace ((fun _ _ => TransportOutcome.rejects 0) 1 demoPending.id) = false
       ∧ (processAutoCall (fun _ _ => TransportOutcome.rejects 0) false 0 0
            { initState [demoPending] with
              isAutoCallActive := true, isAutoCallingRef := true }).isAutoCallingRef = true
       ∧ (processAutoCall (fun _ _ => TransportOutcome.rejects 0) false 0 0
            { initState [demoPending] with
              isAutoCallActive := true, isAutoCallingRef := true }).autoCallTimeout
            = some { index := 1, delayMs := 1500 }
       ∧ ∀ e ∈ (processAutoCall (fun _ _ => TransportOutcome.rejects 0) false 0 0
            { initState [demoPending] with
              isAutoCallActive := true, isAutoCallingRef := true }).employees,
            e.id = demoPending.id → e.status = CallStatus.missed) := by
  have h := c9_failure_never_aborts (fun _ _ => TransportOutcome.rejects 0) 0 0
    { initState [demoPending] with isAutoCallActive := true, isAutoCallingRef := true }
    demoPending 0 rfl (by decide) (by decide) (by decide) (Or.inl ⟨0, rfl⟩)
  exact ⟨⟨rfl, by decide, Or.inl ⟨0, rfl⟩⟩, h.1, h.2.1, h.2.2.2.1, h.2.2.2.2⟩

/-! ### Branch reductions and termination analysis for full runs -/

/-- Reduction of a step at a non-terminal round boundary: position past the
target list, some contact still unanswered — increment the round, schedule
index 0 after the 2-second inter-round delay. -/
theorem processAutoCall_boundary (transport : Nat → String → TransportOutcome)
    (b : Bool) (now i : Nat) (s : CallSystemState)
    (href : s.isAutoCallingRef = true) (hlen : s.employees.length ≠ 0)
    (hT0 : (dispatchTargets s.currentRound s.employees).length ≠ 0)
    (hBd : (dispatchTargets s.currentRound s.employees).length ≤ i)
    (hSU : (s.employees.filter isUnanswered).length ≠ 0) :
    processAutoCall transport b now i s
      = { s with
            currentRound := s.currentRound + 1
            autoCallTimeout := some { index := 0, delayMs := 2000 } } := by
  have hTop : ¬ (s.isAutoCallingRef = false ∨ s.employees.length = 0) := by
    push_neg
    exact ⟨by simp [href], hlen⟩
  simp only [processAutoCall]
  rw [if_neg hTop, if_neg hT0, if_pos hBd, if_neg hSU]

/-- Reduction of a step at a terminal round boundary: position past the
target list and nobody left unanswered — stop. -/
theorem processAutoCall_terminal (transport : Nat → String → TransportOutcome)
    (b : Bool) (now i : Nat) (s : CallSystemState)
    (href : s.isAutoCallingRef = true) (hlen : s.employees.length ≠ 0)
    (hT0 : (dispatchTargets s.currentRound s.employees).length ≠ 0)
    (hBd : (dispatchTargets s.currentRound s.employees).length ≤ i)
    (hSU : (s.employees.filter isUnanswered).length = 0) :
    processAutoCall transport b now i s = stopAutoCalling s := by
  have hTop : ¬ (s.isAutoCallingRef = false ∨ s.employees.length = 0) := by
    push_neg
    exact ⟨by simp [href], hlen⟩
  simp only [processAutoCall]
  rw [if_neg hTop, if_neg hT0, if_pos hBd, if_pos hSU]

/-- Updating the status of the sole contact of a singleton list. -/
theorem updateEmployeeStatus_singleton (now : Nat) (targetId : String)
    (st : CallStatus) (e : Employee) (hid : e.id = targetId) :
    updateEmployeeStatus now targetId st [e]
      = [{ e with
            status := st
            lastCallTime := some now
            callAttempts :=
              if st = CallStatus.calling then e.callAttempts else e.callAttempts + 1 }] := by
  simp [updateEmployeeStatus, hid]

/-- A list that contains a match always yields some index under findIdx?. -/
theorem findIdx?_isSome_of_mem (p : Employee → Bool) :
    ∀ (l : List Employee) (i : Nat), (∃ x ∈ l, p x = true) →
      ∃ k, List.findIdx? p l i = some k := by
  intro l
  induction l with
  | nil =>
    intro i h
    rcases h with ⟨x, hx, _⟩
    exact absurd hx (List.not_mem_nil x)
  | cons a l ih =>
    intro i h
    by_cases hp : p a = true
    · exact ⟨i, by rw [List.findIdx?_cons, if_pos hp]⟩
    · rcases h with ⟨x, hx, hpx⟩
      rcases List.mem_cons.mp hx with rfl | hmem
      · exact absurd hpx hp
      · rcases ih (i + 1) ⟨x, hmem, hpx⟩ with ⟨k, hk⟩
        exact ⟨k, by rw [List.findIdx?_cons, if_neg hp, hk]⟩

/-- The first element of a list satisfies its own-id search. -/
theorem findIdx?_head_id (e : Employee) (es : List Employee) :
    (e :: es).findIdx? (fun emp => emp.id = e.id) = some 0 := by
  rw [List.findIdx?_cons, if_pos (by simp)]

/-- Firing the pending dispatch against the never-answering single contact
keeps the loop invariant: the scheduler stays up with another dispatch
pending. -/
theorem missLoopInv_step (task : PendingDispatch) (s : CallSystemState)
    (hInv : missLoopInv s) (htask : s.autoCallTimeout = some task) :
    missLoopInv
      (processAutoCall missTransport false 0 task.index
        { s with autoCallTimeout := none }) := by
  obtain ⟨hact, href, ⟨e, hemps, hid, hun⟩, htsel⟩ := hInv
  have hemps' : ({ s with autoCallTimeout := none } : CallSystemState).employees = [e] := hemps
  have href' : ({ s with autoCallTimeout := none } : CallSystemState).isAutoCallingRef = true := href
  have hact' : ({ s with autoCallTimeout := none } : CallSystemState).isAutoCallActive = true := hact
  have hlen : ({ s with autoCallTimeout := none } : CallSystemState).employees.length ≠ 0 := by
    rw [hemps']
    simp
  have hT : dispatchTargets ({ s with autoCallTimeout := none } : CallSystemState).currentRound
      ({ s with autoCallTimeout := none } : CallSystemState).employees = [e] := by
    rw [hemps']
    show dispatchTargets s.currentRound [e] = [e]
    by_cases hr : s.currentRound = 1
    · simp [dispatchTargets, hr]
    · simp [dispatchTargets, hr, List.filter_cons, hun]
  rw [htask] at htsel
  have hidx : task.index = 0 ∨ task.index = 1 := by
    rcases htsel with h | h | h <;> rw [Option.some.inj h] <;> simp
  have hrace : callRace (missTransport
      ({ s with autoCallTimeout := none } : CallSystemState).currentRound e.id) = false :=
    callRace_resolves_lt 0 false (by decide)
  rcases hidx with h0 | h1
  · -- dial the contact; it resolves unanswered and index 1 is scheduled
    have hget : (dispatchTargets ({ s with autoCallTimeout := none } : CallSystemState).currentRound
        ({ s with autoCallTimeout := none } : CallSystemState).employees)[task.index]? = some e := by
      rw [hT, h0]
      rfl
    have hfind : ({ s with autoCallTimeout := none } : CallSystemState).employees.findIdx?
        (fun emp => emp.id = e.id) = some 0 := by
      rw [hemps']
      exact findIdx?_head_id e []
    rw [processAutoCall_dial missTransport false 0 task.index _ e 0 href' hlen hget hfind]
    have hfields := dialStep_false_fields missTransport 0 task.index e 0
      { s with autoCallTimeout := none } href'
    refine ⟨?_, hfields.1, ?_, ?_⟩
    · rw [hfields.2.1]
      exact hact'
    · rw [dialStep_employees, hrace, hemps']
      rw [show (if (false : Bool) = true then CallStatus.answered else CallStatus.missed)
            = CallStatus.missed from rfl]
      refine ⟨{ e with
          status := CallStatus.missed
          lastCallTime := some 0
          callAttempts := e.callAttempts + 1 }, ?_, hid, rfl⟩
      simp [updateEmployeeStatus]
    · rw [hfields.2.2, h0]
      exact Or.inr (Or.inl rfl)
  · -- round boundary: the contact is still unanswered, so a new round starts
    have hT0 : (dispatchTargets ({ s with autoCallTimeout := none } : CallSystemState).currentRound
        ({ s with autoCallTimeout := none } : CallSystemState).employees).length ≠ 0 := by
      rw [hT]
      simp
    have hBd : (dispatchTargets ({ s with autoCallTimeout := none } : CallSystemState).currentRound
        ({ s with autoCallTimeout := none } : CallSystemState).employees).length ≤ task.index := by
      rw [hT, h1]
      simp
    have hSU : (({ s with autoCallTimeout := none } : CallSystemState).employees.filter
        isUnanswered).length ≠ 0 := by
      rw [hemps']
      simp [List.filter_cons, hun]
    rw [processAutoCall_boundary missTransport false 0 task.index _ href' hlen hT0 hBd hSU]
    exact ⟨hact', href', ⟨e, hemps', hid, hun⟩, Or.inr (Or.inr rfl)⟩

/-- The never-answering loop invariant survives any amount of timer-loop
fuel. -/
theorem missLoop_run (fuel : Nat) :
    ∀ s : CallSystemState, missLoopInv s →
      missLoopInv (runScheduler missTransport fuel s) := by
  induction fuel with
  | zero => intro s h; exact h
  | succ fuel ih =>
    intro s h
    cases htask : s.autoCallTimeout with
    | none =>
      simp only [runScheduler, htask]
      exact h
    | some task =>
      simp only [runScheduler, htask]
      exact ih _ (missLoopInv_step task s h htask)

/-- Counterexample to C5 as stated: a single pending contact and a transport
that always resolves within the 10-second deadline (immediately, with
answered = false).  The run never reaches the inactive state, however much
simulated time passes: resolution within the deadline alone does not give
termination. -/
theorem c5_eventual_inactive_counterexample :
    (∀ r theId, ∃ t b, missTransport r theId = TransportOutcome.resolves t b
        ∧ t < callTimeoutMs)
    ∧ ([demoPending] : List Employee) ≠ []
    ∧ ¬ ∃ fuel, (runScheduler missTransport fuel
          (startAutoCalling (initState [demoPending]))).isAutoCallActive = false := by
  refine ⟨fun r theId => ⟨0, false, rfl, by decide⟩, by decide, ?_⟩
  rintro ⟨fuel, hfuel⟩
  have hInv0 : missLoopInv (startAutoCalling (initState [demoPending])) := by
    refine ⟨rfl, rfl, ⟨demoPending, rfl, rfl, rfl⟩, Or.inl rfl⟩
  have hact := (missLoop_run fuel _ hInv0).1
  rw [hact] at hfuel
  exact Bool.noConfusion hfuel

theorem updateEmployeeStatus_length (now : Nat) (targetId : String) (st : CallStatus)
    (l : List Employee) : (updateEmployeeStatus now targetId st l).length = l.length := by
  simp [updateEmployeeStatus]

theorem updateEmployeeStatus_map_id (now : Nat) (targetId : String) (st : CallStatus)
    (l : List Employee) :
    (updateEmployeeStatus now targetId st l).map Employee.id = l.map Employee.id := by
  unfold updateEmployeeStatus
  rw [List.map_map]
  apply List.map_congr_left
  intro x _
  by_cases h : x.id = targetId <;> simp [Function.comp, h]

theorem updateEmployeeStatus_get_id (now : Nat) (targetId : String) (st : CallStatus)
    (l : List Employee) (k : Nat) (hk : k < l.length)
    (hk2 : k < (updateEmployeeStatus now targetId st l).length) :
    ((updateEmployeeStatus now targetId st l).get ⟨k, hk2⟩).id = (l.get ⟨k, hk⟩).id := by
  simp only [updateEmployeeStatus, List.get_eq_getElem, List.getElem_map]
  by_cases h : l[k].id = targetId <;> simp [h]

theorem updateEmployeeStatus_get_status (now : Nat) (targetId : String) (st : CallStatus)
    (l : List Employee) (k : Nat) (hk : k < l.length)
    (hk2 : k < (updateEmployeeStatus now targetId st l).length) :
    ((updateEmployeeStatus now targetId st l).get ⟨k, hk2⟩).status
      = if (l.get ⟨k, hk⟩).id = targetId then st else (l.get ⟨k, hk⟩).status := by
  simp only [updateEmployeeStatus, List.get_eq_getElem, List.getElem_map]
  by_cases h : l[k].id = targetId <;> simp [h]

theorem get_congr {l1 l2 : List Employee} (h : l1 = l2) (k : Nat)
    (hk1 : k < l1.length) (hk2 : k < l2.length) :
    l1.get ⟨k, hk1⟩ = l2.get ⟨k, hk2⟩ := by
  subst h
  rfl

/-- A round-1 step of an always-answering run: dispatching index `j`
(with `j` within the list) answers the `j`-th contact and schedules `j+1`. -/
theorem roundOneInv_step (emps0 : List Employee)
    (transport : Nat → String → TransportOutcome)
    (hT : ∀ r theId, ∃ t, transport r theId = TransportOutcome.resolves t true
        ∧ t < callTimeoutMs)
    (j : Nat) (hj : j < emps0.length) (s : CallSystemState)
    (hInv : roundOneInv emps0 j s) :
    roundOneInv emps0 (j + 1)
      (processAutoCall transport false 0 j { s with autoCallTimeout := none }) := by
  obtain ⟨hact, href, hround, ⟨d, htime⟩, hmap, hstatus⟩ := hInv
  have hlen_eq : s.employees.length = emps0.length := by
    have h := congrArg List.length hmap
    simpa using h
  have hjlen : j < s.employees.length := by omega
  have href' : ({ s with autoCallTimeout := none } : CallSystemState).isAutoCallingRef = true :=
    href
  have hlen0 : ({ s with autoCallTimeout := none } : CallSystemState).employees.length ≠ 0 := by
    show s.employees.length ≠ 0
    omega
  have hTargets : dispatchTargets
      ({ s with autoCallTimeout := none } : CallSystemState).currentRound
      ({ s with autoCallTimeout := none } : CallSystemState).employees = s.employees := by
    show dispatchTargets s.currentRound s.employees = s.employees
    rw [hround]
    simp [dispatchTargets]
  have hget : (dispatchTargets
      ({ s with autoCallTimeout := none } : CallSystemState).currentRound
      ({ s with autoCallTimeout := none } : CallSystemState).employees)[j]?
        = some (s.employees.get ⟨j, hjlen⟩) := by
    rw [hTargets]
    simp [List.getElem?_eq_getElem hjlen]
  have hfindex : ∃ ai, ({ s with autoCallTimeout := none } : CallSystemState).employees.findIdx?
      (fun emp => emp.id = (s.employees.get ⟨j, hjlen⟩).id) = some ai := by
    apply findIdx?_isSome_of_mem
    exact ⟨s.employees.get ⟨j, hjlen⟩, List.get_mem s.employees j hjlen, by simp⟩
  obtain ⟨ai, hfind⟩ := hfindex
  rw [processAutoCall_dial transport false 0 j _ (s.employees.get ⟨j, hjlen⟩) ai
    href' hlen0 hget hfind]
  have hrace : callRace (transport
      ({ s with autoCallTimeout := none } : CallSystemState).currentRound
      (s.employees.get ⟨j, hjlen⟩).id) = true := by
    obtain ⟨t, htr, hlt⟩ := hT ({ s with autoCallTimeout := none } : CallSystemState).currentRound
      (s.employees.get ⟨j, hjlen⟩).id
    rw [htr]
    exact callRace_resolves_lt t true hlt
  have hfields := dialStep_false_fields transport 0 j (s.employees.get ⟨j, hjlen⟩) ai
    { s with autoCallTimeout := none } href'
  have hemps2 : (dialStep transport false 0 j (s.employees.get ⟨j, hjlen⟩) ai
      { s with autoCallTimeout := none }).employees
        = updateEmployeeStatus 0 (s.employees.get ⟨j, hjlen⟩).id CallStatus.answered
            (updateEmployeeStatus 0 (s.employees.get ⟨j, hjlen⟩).id CallStatus.calling
              s.employees) := by
    rw [dialStep_employees, hrace]
    rw [show (if (true : Bool) = true then CallStatus.answered else CallStatus.missed)
          = CallStatus.answered from rfl]
  refine ⟨?_, hfields.1, ?_, ⟨1500, hfields.2.2⟩, ?_, ?_⟩
  · rw [hfields.2.1]
    exact hact
  · rw [dialStep_currentRound]
    exact hround
  · rw [hemps2, updateEmployeeStatus_map_id, updateEmployeeStatus_map_id]
    exact hmap
  · intro k hk hkj
    have hk0 : k < s.employees.length := by
      have hlen2 : (dialStep transport false 0 j (s.employees.get ⟨j, hjlen⟩) ai
          { s with autoCallTimeout := none }).employees.length = s.employees.length := by
        rw [hemps2, updateEmployeeStatus_length, updateEmployeeStatus_length]
      omega
    have hk1 : k < (updateEmployeeStatus 0 (s.employees.get ⟨j, hjlen⟩).id CallStatus.calling
        s.employees).length := by
      rw [updateEmployeeStatus_length]
      exact hk0
    have hk2 : k < (updateEmployeeStatus 0 (s.employees.get ⟨j, hjlen⟩).id CallStatus.answered
        (updateEmployeeStatus 0 (s.employees.get ⟨j, hjlen⟩).id CallStatus.calling
          s.employees)).length := by
      rw [updateEmployeeStatus_length, updateEmployeeStatus_length]
      exact hk0
    rw [get_congr hemps2 k hk hk2]
    rw [updateEmployeeStatus_get_status 0 _ _ _ k hk1 hk2]
    rw [updateEmployeeStatus_get_id 0 _ _ _ k hk0 hk1]
    rw [updateEmployeeStatus_get_status 0 _ _ _ k hk0 hk1]
    rcases Nat.lt_succ_iff_lt_or_eq.mp hkj with hklt | hkeq
    · by_cases hidk : (s.employees.get ⟨k, hk0⟩).id = (s.employees.get ⟨j, hjlen⟩).id
      · rw [if_pos hidk]
      · rw [if_neg hidk, if_neg hidk]
        exact hstatus k hk0 hklt
    · subst hkeq
      rw [if_pos rfl]

/-- Once the round-1 invariant holds at position `j`, enough timer-loop fuel
reaches the stopped state with every contact answered or missed. -/
theorem roundOne_terminates (emps0 : List Employee) (hne : emps0 ≠ [])
    (transport : Nat → String → TransportOutcome)
    (hT : ∀ r theId, ∃ t, transport r theId = TransportOutcome.resolves t true
        ∧ t < callTimeoutMs) :
    ∀ m j s, emps0.length - j = m → j ≤ emps0.length → roundOneInv emps0 j s →
      ∃ fuel, (runScheduler transport fuel s).isAutoCallActive = false
        ∧ (runScheduler transport fuel s).autoCallTimeout = none
        ∧ ∀ e ∈ (runScheduler transport fuel s).employees,
            e.status = CallStatus.answered ∨ e.status = CallStatus.missed := by
  intro m
  induction m with
  | zero =>
    intro j s hm hjle hInv
    obtain ⟨hact, href, hround, ⟨d, htime⟩, hmap, hstatus⟩ := hInv
    have hlen_eq : s.employees.length = emps0.length := by
      have h := congrArg List.length hmap
      simpa using h
    have hlenne : emps0.length ≠ 0 := fun h => hne (List.length_eq_zero.mp h)
    refine ⟨1, ?_⟩
    have hrun : runScheduler transport 1 s
        = processAutoCall transport false 0 j { s with autoCallTimeout := none } := by
      simp only [runScheduler, htime]
    rw [hrun]
    have href' : ({ s with autoCallTimeout := none } : CallSystemState).isAutoCallingRef = true :=
      href
    have hlen0 : ({ s with autoCallTimeout := none } : CallSystemState).employees.length ≠ 0 := by
      show s.employees.length ≠ 0
      omega
    have hTargets : dispatchTargets
        ({ s with autoCallTimeout := none } : CallSystemState).currentRound
        ({ s with autoCallTimeout := none } : CallSystemState).employees = s.employees := by
      show dispatchTargets s.currentRound s.employees = s.employees
      rw [hround]
      simp [dispatchTargets]
    have hT0 : (dispatchTargets
        ({ s with autoCallTimeout := none } : CallSystemState).currentRound
        ({ s with autoCallTimeout := none } : CallSystemState).employees).length ≠ 0 := by
      rw [hTargets]
      omega
    have hBd : (dispatchTargets
        ({ s with autoCallTimeout := none } : CallSystemState).currentRound
        ({ s with autoCallTimeout := none } : CallSystemState).employees).length ≤ j := by
      rw [hTargets]
      omega
    have hSU : (({ s with autoCallTimeout := none } : CallSystemState).employees.filter
        isUnanswered).length = 0 := by
      show (s.employees.filter isUnanswered).length = 0
      have hnil : s.employees.filter isUnanswered = [] := by
        rw [List.filter_eq_nil_iff]
        intro a ha
        rcases List.mem_iff_get.mp ha with ⟨⟨k, hk⟩, hget⟩
        have hstat := hstatus k hk (by omega)
        rw [hget] at hstat
        simp [isUnanswered, hstat]
      rw [hnil]
      rfl
    rw [processAutoCall_terminal transport false 0 j _ href' hlen0 hT0 hBd hSU]
    refine ⟨rfl, rfl, ?_⟩
    intro e he
    have he' : e ∈ s.employees := he
    rcases List.mem_iff_get.mp he' with ⟨⟨k, hk⟩, hget⟩
    left
    have hstat := hstatus k hk (by omega)
    rw [hget] at hstat
    exact hstat
  | succ m ih =>
    intro j s hm hjle hInv
    have hjlt : j < emps0.length := by omega
    obtain ⟨d, htime⟩ := hInv.2.2.2.1
    have hstep := roundOneInv_step emps0 transport hT j hjlt s hInv
    obtain ⟨fuel, hf1, hf2, hf3⟩ := ih (j + 1)
      (processAutoCall transport false 0 j { s with autoCallTimeout := none })
      (by omega) (by omega) hstep
    have hrun : runScheduler transport (fuel + 1) s
        = runScheduler transport fuel
            (processAutoCall transport false 0 j { s with autoCallTimeout := none }) := by
      simp only [runScheduler, htime]
    exact ⟨fuel + 1, by rw [hrun]; exact hf1, by rw [hrun]; exact hf2,
      by rw [hrun]; exact hf3⟩

/-- Amended C5: for every non-empty contact set, if the transport answers
every call (resolves with answered = true) within the 10-second deadline,
then start() followed by enough simulated time reaches the inactive state
with no pending dispatch and every contact answered or missed. -/
theorem c5_run_terminates_when_answering (emps : List Employee) (hne : emps ≠ [])
    (transport : Nat → String → TransportOutcome)
    (hT : ∀ r theId, ∃ t, transport r theId = TransportOutcome.resolves t true
        ∧ t < callTimeoutMs) :
    ∃ fuel,
      (runScheduler transport fuel (startAutoCalling (initState emps))).isAutoCallActive = false
      ∧ (runScheduler transport fuel (startAutoCalling (initState emps))).autoCallTimeout = none
      ∧ ∀ e ∈ (runScheduler transport fuel (startAutoCalling (initState emps))).employees,
          e.status = CallStatus.answered ∨ e.status = CallStatus.missed := by
  have hlen : ¬ emps.length = 0 := fun h => hne (List.length_eq_zero.mp h)
  have hstart : startAutoCalling (initState emps)
      = { initState emps with
            isAutoCallActive := true
            isAutoCallingRef := true
            currentRound := 1
            currentEmployeeIndex := 0
            autoCallTimeout := some { index := 0, delayMs := 500 } } := by
    simp [startAutoCalling, initState, hlen]
  have hInv : roundOneInv emps 0 (startAutoCalling (initState emps)) := by
    rw [hstart]
    exact ⟨rfl, rfl, rfl, ⟨500, rfl⟩, rfl, fun k hk h0 => absurd h0 (Nat.not_lt_zero k)⟩
  exact roundOne_terminates emps hne transport hT (emps.length - 0) 0
    (startAutoCalling (initState emps)) rfl (Nat.zero_le _) hInv

/-- Witness for the amended C5: one pending contact, a transport answering
instantly; the run reaches inactive with everyone answered or missed. -/
theorem c5_run_terminates_when_answering_witness :
    (([demoPending] : List Employee) ≠ []
     ∧ ∀ r theId, ∃ t, (fun _ _ => TransportOutcome.resolves 0 true
          : Nat → String → TransportOutcome) r theId
            = TransportOutcome.resolves t true ∧ t < callTimeoutMs)
    ∧ ∃ fuel,
      (runScheduler (fun _ _ => TransportOutcome.resolves 0 true) fuel
          (startAutoCalling (initState [demoPending]))).isAutoCallActive = false
      ∧ (runScheduler (fun _ _ => TransportOutcome.resolves 0 true) fuel
          (startAutoCalling (initState [demoPending]))).autoCallTimeout = none
      ∧ ∀ e ∈ (runScheduler (fun _ _ => TransportOutcome.resolves 0 true) fuel
          (startAutoCalling (initState [demoPending]))).employees,
          e.status = CallStatus.answered ∨ e.status = CallStatus.missed :=
  ⟨⟨by decide, fun r theId => ⟨0, rfl, by decide⟩⟩,
   c5_run_terminates_when_answering [demoPending] (by decide)
     (fun _ _ => TransportOutcome.resolves 0 true)
     (fun r theId => ⟨0, rfl, by decide⟩)⟩
